import Mathlib

/-
  Verification development for the queuectl background job queue
  (Python package queuectl: storage.py, models.py, worker.py, cli.py).

  The SQLite jobs table (storage.py, _create_tables) has exactly the
  columns id, command, state, attempts, max_retries, created_at,
  updated_at, locked_by, locked_at.  Timestamps are ISO-8601 UTC strings
  in the source; since their lexicographic order coincides with
  chronological order, they are embedded as natural numbers (seconds),
  and datetime arithmetic becomes addition.  SQL NULL is embedded as
  Option.none, and fallible database calls return Except.
-/

namespace Queuectl

/-- A row of the jobs table, exactly the columns created by
    storage.py _create_tables (note: there is no priority and no
    next_retry_at column in the schema). -/
structure JobRow where
  id : String
  command : String
  state : String
  attempts : Nat
  max_retries : Nat
  created_at : Nat
  updated_at : Nat
  locked_by : Option String
  locked_at : Option Nat
deriving DecidableEq, Repr

/-- The persisted database: the jobs relation in rowid (insertion)
    order, and the config key/value relation. -/
structure Store where
  jobs : List JobRow
  config : List (String × String)
deriving DecidableEq, Repr

/-- An SQL value as bound into a parameterized statement: an integer,
    a text value, or NULL.  Timestamps are bound as vnat. -/
inductive Value where
  | vnat : Nat → Value
  | vstr : String → Value
  | vnull : Value
deriving DecidableEq, Repr

/-- The column names of the jobs table (storage.py _create_tables plus
    the locked_by and locked_at migration).  A patch naming any other
    column makes the UPDATE statement fail at prepare time. -/
def jobsColumns : List String :=
  ["id", "command", "state", "attempts", "max_retries",
   "created_at", "updated_at", "locked_by", "locked_at"]

/-- Effect of one SET clause column = value on a row.  The code only
    ever binds values of the shape expected by the column, so mismatched
    shapes (which dynamically typed SQLite would accept) leave the row
    unchanged here. -/
def applyCol (r : JobRow) (kv : String × Value) : JobRow :=
  match kv with
  | ("id", Value.vstr s) => { r with id := s }
  | ("command", Value.vstr s) => { r with command := s }
  | ("state", Value.vstr s) => { r with state := s }
  | ("attempts", Value.vnat n) => { r with attempts := n }
  | ("max_retries", Value.vnat n) => { r with max_retries := n }
  | ("created_at", Value.vnat n) => { r with created_at := n }
  | ("updated_at", Value.vnat n) => { r with updated_at := n }
  | ("locked_by", Value.vstr s) => { r with locked_by := some s }
  | ("locked_by", Value.vnull) => { r with locked_by := none }
  | ("locked_at", Value.vnat n) => { r with locked_at := some n }
  | ("locked_at", Value.vnull) => { r with locked_at := none }
  | _ => r

/-- storage.py Storage.update_job: an empty patch returns False before
    touching the database; otherwise the UPDATE statement is built from
    the patch keys (a key that is not a jobs column raises
    sqlite3.OperationalError at prepare time, before any row is
    examined), updated_at is always set to now, every row matching the
    id is updated, and the returned Bool is rowcount > 0. -/
def update_job (s : Store) (job_id : String) (updates : List (String × Value))
    (now : Nat) : Except String (Store × Bool) :=
  if updates.isEmpty then
    Except.ok (s, false)
  else
    match updates.find? (fun kv => !(jobsColumns.contains kv.1)) with
    | some kv => Except.error ("no such column: " ++ kv.1)
    | none =>
        let jobs := s.jobs.map (fun r =>
          if r.id = job_id then { updates.foldl applyCol r with updated_at := now }
          else r)
        Except.ok ({ s with jobs := jobs }, s.jobs.any (fun r => r.id == job_id))

/-- models.py Job: the in-memory job object built by the cli.  It does
    carry priority and next_retry_at fields even though the jobs table
    has no such columns. -/
structure Job where
  id : String
  command : String
  priority : String := "medium"
  state : String := "pending"
  attempts : Nat := 0
  max_retries : Nat := 3
  created_at : Nat
  updated_at : Nat
  next_retry_at : Option Nat := none
deriving DecidableEq, Repr

/-- storage.py Storage.create_job: INSERT INTO jobs (id, command, state,
    attempts, max_retries, created_at, updated_at) — only these seven
    keys of the job dict are read; priority and next_retry_at from
    Job.to_dict are silently ignored, and the lock columns start NULL.
    A duplicate primary key raises sqlite3.IntegrityError. -/
def create_job (s : Store) (job_data : Job) : Except String Store :=
  if s.jobs.any (fun r => r.id == job_data.id) then
    Except.error "UNIQUE constraint failed: jobs.id"
  else
    Except.ok { s with jobs := s.jobs ++
      [{ id := job_data.id
         command := job_data.command
         state := job_data.state
         attempts := job_data.attempts
         max_retries := job_data.max_retries
         created_at := job_data.created_at
         updated_at := job_data.updated_at
         locked_by := none
         locked_at := none }] }

/-- storage.py Storage.get_job: SELECT of all jobs columns by id. -/
def get_job (s : Store) (job_id : String) : Option JobRow :=
  s.jobs.find? (fun r => r.id == job_id)

/-- One step of the scan behind the claim query
    SELECT ... WHERE state = pending AND locked_by IS NULL
    ORDER BY created_at ASC LIMIT 1:
    keep the first-seen row of minimal created_at among the rows
    passing the WHERE clause. -/
def selStep (acc : Option JobRow) (r : JobRow) : Option JobRow :=
  if r.state = "pending" ∧ r.locked_by = none then
    match acc with
    | none => some r
    | some b => if r.created_at < b.created_at then some r else some b
  else acc

/-- The SELECT of storage.py Storage.claim_next_job. -/
def selectFirstPending (jobs : List JobRow) : Option JobRow :=
  jobs.foldl selStep none

/-- The UPDATE of storage.py Storage.claim_next_job applied to a row:
    SET state = processing, locked_by = worker, locked_at = now,
    updated_at = now. -/
def claimUpdate (r : JobRow) (worker_id : String) (now : Nat) : JobRow :=
  { r with state := "processing", locked_by := some worker_id,
           locked_at := some now, updated_at := now }

/-- storage.py Storage.claim_next_job: inside one immediate transaction,
    select the first pending unlocked row by created_at, update every
    row with its id via claimUpdate, and return the claimed job dict
    (the selected row with the four updated fields overwritten).
    It takes no time parameter for eligibility; now only feeds the
    lock and update timestamps. -/
def claim_next_job (s : Store) (worker_id : String) (now : Nat) :
    Option (Store × JobRow) :=
  match selectFirstPending s.jobs with
  | none => none
  | some j =>
      let jobs := s.jobs.map (fun r =>
        if r.id = j.id then claimUpdate r worker_id now else r)
      some ({ s with jobs := jobs }, claimUpdate j worker_id now)

/-- storage.py Storage.set_config: INSERT OR REPLACE. -/
def set_config (s : Store) (key value : String) : Store :=
  { s with config := (s.config.filter (fun kv => kv.1 ≠ key)) ++ [(key, value)] }

/-- storage.py Storage.get_config with its default argument. -/
def get_config (s : Store) (key : String) (default : Option String) :
    Option String :=
  match s.config.find? (fun kv => kv.1 == key) with
  | some kv => some kv.2
  | none => default

/-- storage.py Storage.get_job_counts restricted to one state name:
    COUNT(*) GROUP BY state. -/
def get_job_counts (s : Store) (state : String) : Nat :=
  (s.jobs.filter (fun r => r.state == state)).length

/-- worker.py Worker.should_retry: attempts < max_retries. -/
def should_retry (attempts max_retries : Nat) : Bool :=
  attempts < max_retries

/-- worker.py Worker.mark_as_processing: a bare state update, without
    touching the lock columns. -/
def mark_as_processing (s : Store) (job_id : String) (now : Nat) :
    Except String (Store × Bool) :=
  update_job s job_id [("state", Value.vstr "processing")] now

/-- worker.py Worker.mark_as_completed: state completed, both lock
    columns cleared. -/
def mark_as_completed (s : Store) (job_id : String) (now : Nat) :
    Except String (Store × Bool) :=
  update_job s job_id
    [("state", Value.vstr "completed"), ("locked_by", Value.vnull),
     ("locked_at", Value.vnull)] now

/-- Decimal digit accumulator for strToNatModel. -/
def digitsAcc : List Char → Nat → Option Nat
  | [], acc => some acc
  | c :: cs, acc =>
      if c.isDigit then digitsAcc cs (acc * 10 + (c.toNat - 48)) else none

/-- Parse a non-empty all-digit decimal string, as Python int() accepts
    for the non-negative config values used here; anything else is a
    parse failure. -/
def strToNatModel (s : String) : Option Nat :=
  match s.data with
  | [] => none
  | l => digitsAcc l 0

/-- Python int() applied to an optional config string (ValueError on a
    non-numeric string, TypeError on None). -/
def parseIntConfig (v : Option String) : Except String Nat :=
  match v with
  | none => Except.error "int() argument must not be None"
  | some t =>
      match strToNatModel t with
      | some n => Except.ok n
      | none => Except.error ("invalid literal for int(): " ++ t)

/-- worker.py Worker.mark_as_failed: with new_attempts = attempts + 1,
    either the retry branch (state pending, attempts, next_retry_at =
    now + initial_delay * base ^ new_attempts, locks cleared) or the
    DLQ branch (state dead, attempts, next_retry_at NULL, locks
    cleared); both branches go through Storage.update_job with a patch
    that names the next_retry_at column. -/
def mark_as_failed (s : Store) (job_id : String) (attempts max_retries : Nat)
    (now : Nat) : Except String (Store × Bool) := do
  let new_attempts := attempts + 1
  if should_retry new_attempts max_retries then
    let backoff_base ← parseIntConfig (get_config s "backoff-base" (some "2"))
    let initial_delay ←
      parseIntConfig (get_config s "backoff-initial-delay" (some "1"))
    let delay_seconds := initial_delay * backoff_base ^ new_attempts
    let next_retry_at := now + delay_seconds
    update_job s job_id
      [("state", Value.vstr "pending"), ("attempts", Value.vnat new_attempts),
       ("next_retry_at", Value.vnat next_retry_at),
       ("locked_by", Value.vnull), ("locked_at", Value.vnull)] now
  else
    update_job s job_id
      [("state", Value.vstr "dead"), ("attempts", Value.vnat new_attempts),
       ("next_retry_at", Value.vnull),
       ("locked_by", Value.vnull), ("locked_at", Value.vnull)] now

/-- The outcome of the failure-handling decision inside
    worker.py mark_as_failed. -/
inductive Decision where
  | dead : Decision
  | retry : Nat → Nat → Decision
deriving DecidableEq, Repr

/-- The decision computed by worker.py mark_as_failed (lines 107 to
    121), with the two config integers already read: first the delay in
    seconds, then the absolute next retry time. -/
def decision_of_failure (attempts max_retries backoff_base initial_delay
    now : Nat) : Decision :=
  let new_attempts := attempts + 1
  if should_retry new_attempts max_retries then
    Decision.retry (initial_delay * backoff_base ^ new_attempts)
      (now + initial_delay * backoff_base ^ new_attempts)
  else
    Decision.dead

/-- Modelled from the spec, section 4.3: decide_after_failure with
    a = attempts_before + 1; Dead iff a is at least max_retries, else
    Retry with delay initial_delay times base to the power a and
    next_retry_at = now + delay.  Stated from the words of the spec for
    comparison with decision_of_failure. -/
def spec_decide_after_failure (attempts_before max_retries base initial_delay
    now : Nat) : Decision :=
  let a := attempts_before + 1
  if a ≥ max_retries then Decision.dead
  else
    Decision.retry (initial_delay * base ^ a) (now + initial_delay * base ^ a)

/-- cli.py enqueue, the validated happy path after JSON parsing: the
    priority must be one of high, medium, low, and the inserted Job has
    state pending, attempts 0 and both auto-set timestamps equal to the
    creation time. -/
def enqueue (s : Store) (id command priority : String) (max_retries : Nat)
    (now : Nat) : Except String Store :=
  if ["high", "medium", "low"].contains priority then
    create_job s
      { id := id, command := command, priority := priority,
        state := "pending", attempts := 0, max_retries := max_retries,
        created_at := now, updated_at := now, next_retry_at := none }
  else
    Except.error ("Invalid priority: " ++ priority)

/-- Failure modes of the cli dlq retry command. -/
inductive RetryError where
  | notFound : RetryError
  | wrongState : String → RetryError
  | storeError : String → RetryError
deriving DecidableEq, Repr

/-- cli.py dlq retry (confirmation answered yes): NotFound for an
    unknown id; a state error carrying the current state for a job not
    in state dead; otherwise Storage.update_job with state pending,
    attempts 0 and both lock columns cleared. -/
def dlq_retry (s : Store) (job_id : String) (now : Nat) :
    Except RetryError (Store × Bool) :=
  match get_job s job_id with
  | none => Except.error RetryError.notFound
  | some job =>
      if job.state = "dead" then
        match update_job s job_id
          [("state", Value.vstr "pending"), ("attempts", Value.vnat 0),
           ("locked_by", Value.vnull), ("locked_at", Value.vnull)] now with
        | Except.ok r => Except.ok r
        | Except.error e => Except.error (RetryError.storeError e)
      else
        Except.error (RetryError.wrongState job.state)

/-- cli.py status, lines 246 to 258: when pending + processing is
    positive the command calls storage.get_priority_counts(); the
    Storage class defines no method of that name anywhere in the
    repository, so Python raises AttributeError, embedded here as the
    error value.  With no active jobs the priority section is skipped. -/
def status_priority_counts (s : Store) :
    Except String (Option (Nat × Nat × Nat)) :=
  let active := get_job_counts s "pending" + get_job_counts s "processing"
  if active > 0 then
    Except.error "AttributeError: Storage has no attribute get_priority_counts"
  else
    Except.ok none

/-- The state/lock consistency condition of the spec for one row:
    processing iff both lock fields set, and any of the four passive
    states implies both lock fields NULL. -/
def rowInv (r : JobRow) : Prop :=
  (r.state = "processing" ↔ (r.locked_by ≠ none ∧ r.locked_at ≠ none)) ∧
  ((r.state = "pending" ∨ r.state = "completed" ∨ r.state = "failed" ∨
    r.state = "dead") → (r.locked_by = none ∧ r.locked_at = none))

instance (r : JobRow) : Decidable (rowInv r) := by
  unfold rowInv; infer_instance

/-- The state/lock invariant over every persisted row. -/
def stateLockInv (s : Store) : Prop :=
  ∀ r ∈ s.jobs, rowInv r

instance (s : Store) : Decidable (stateLockInv s) :=
  List.decidableBAll _ _

/-- Stores reachable through the exposed operations as listed in the
    claim: empty database, config writes, enqueue, claim_next_job, and
    the worker and dlq transitions mark_as_processing,
    mark_as_completed, mark_as_failed and dlq retry (an operation that
    raises produces no new persisted state, so only ok results step). -/
inductive Reachable : Store → Prop where
  | init : Reachable { jobs := [], config := [] }
  | cfg (s : Store) (k v : String) :
      Reachable s → Reachable (set_config s k v)
  | enq (s : Store) (id cmd prio : String) (mr now : Nat) (s' : Store) :
      Reachable s → enqueue s id cmd prio mr now = Except.ok s' →
      Reachable s'
  | claim (s : Store) (w : String) (now : Nat) (s' : Store) (j : JobRow) :
      Reachable s → claim_next_job s w now = some (s', j) → Reachable s'
  | processing (s : Store) (id : String) (now : Nat) (s' : Store) (b : Bool) :
      Reachable s → mark_as_processing s id now = Except.ok (s', b) →
      Reachable s'
  | completed (s : Store) (id : String) (now : Nat) (s' : Store) (b : Bool) :
      Reachable s → mark_as_completed s id now = Except.ok (s', b) →
      Reachable s'
  | failedRec (s : Store) (id : String) (a m now : Nat) (s' : Store) (b : Bool) :
      Reachable s → mark_as_failed s id a m now = Except.ok (s', b) →
      Reachable s'
  | dlqRevive (s : Store) (id : String) (now : Nat) (s' : Store) (b : Bool) :
      Reachable s → dlq_retry s id now = Except.ok (s', b) → Reachable s'

/-- Reachability restricted to the operations other than
    mark_as_processing (the amended form of the invariant claim). -/
inductive ReachableSafe : Store → Prop where
  | init : ReachableSafe { jobs := [], config := [] }
  | cfg (s : Store) (k v : String) :
      ReachableSafe s → ReachableSafe (set_config s k v)
  | enq (s : Store) (id cmd prio : String) (mr now : Nat) (s' : Store) :
      ReachableSafe s → enqueue s id cmd prio mr now = Except.ok s' →
      ReachableSafe s'
  | claim (s : Store) (w : String) (now : Nat) (s' : Store) (j : JobRow) :
      ReachableSafe s → claim_next_job s w now = some (s', j) →
      ReachableSafe s'
  | completed (s : Store) (id : String) (now : Nat) (s' : Store) (b : Bool) :
      ReachableSafe s → mark_as_completed s id now = Except.ok (s', b) →
      ReachableSafe s'
  | failedRec (s : Store) (id : String) (a m now : Nat) (s' : Store) (b : Bool) :
      ReachableSafe s → mark_as_failed s id a m now = Except.ok (s', b) →
      ReachableSafe s'
  | dlqRevive (s : Store) (id : String) (now : Nat) (s' : Store) (b : Bool) :
      ReachableSafe s → dlq_retry s id now = Except.ok (s', b) →
      ReachableSafe s'

/-- Soundness of the scan behind the claim query, generalized over the
    accumulator: a produced row passes the WHERE clause, comes from the
    accumulator or the list, and has minimal created_at. -/
lemma select_go (l : List JobRow) :
    ∀ (acc : Option JobRow) (r : JobRow),
      l.foldl selStep acc = some r →
      (∀ b, acc = some b → (b.state = "pending" ∧ b.locked_by = none)) →
      (r.state = "pending" ∧ r.locked_by = none) ∧
      (acc = some r ∨ r ∈ l) ∧
      (∀ b, acc = some b → r.created_at ≤ b.created_at) ∧
      (∀ r' ∈ l, r'.state = "pending" → r'.locked_by = none →
        r.created_at ≤ r'.created_at) := by
  induction l with
  | nil =>
      intro acc r h hacc
      simp only [List.foldl_nil] at h
      refine ⟨hacc r h, Or.inl h, ?_, ?_⟩
      · intro b hb; rw [h] at hb
        cases hb; exact le_refl _
      · intro r' hr'; cases hr'
  | cons a l ih =>
      intro acc r h hacc
      rw [List.foldl_cons] at h
      by_cases ha : a.state = "pending" ∧ a.locked_by = none
      · cases acc with
        | none =>
            have hs : selStep none a = some a := by simp [selStep, ha]
            rw [hs] at h
            obtain ⟨helig, hmem, hle, hmin⟩ :=
              ih (some a) r h (by intro b hb; cases hb; exact ha)
            refine ⟨helig, ?_, ?_, ?_⟩
            · right
              rcases hmem with h1 | h1
              · cases h1; exact List.mem_cons_self _ _
              · exact List.mem_cons_of_mem _ h1
            · intro b hb; cases hb
            · intro r' hr' hs' hl'
              rcases List.mem_cons.mp hr' with h1 | h1
              · subst h1; exact hle r' rfl
              · exact hmin r' h1 hs' hl'
        | some b0 =>
            by_cases hlt : a.created_at < b0.created_at
            · have hs : selStep (some b0) a = some a := by
                simp [selStep, ha, hlt]
              rw [hs] at h
              obtain ⟨helig, hmem, hle, hmin⟩ :=
                ih (some a) r h (by intro b hb; cases hb; exact ha)
              have hra : r.created_at ≤ a.created_at := hle a rfl
              refine ⟨helig, ?_, ?_, ?_⟩
              · right
                rcases hmem with h1 | h1
                · cases h1; exact List.mem_cons_self _ _
                · exact List.mem_cons_of_mem _ h1
              · intro b hb; cases hb
                exact le_of_lt (lt_of_le_of_lt hra hlt)
              · intro r' hr' hs' hl'
                rcases List.mem_cons.mp hr' with h1 | h1
                · subst h1; exact hra
                · exact hmin r' h1 hs' hl'
            · have hs : selStep (some b0) a = some b0 := by
                simp [selStep, ha, hlt]
              rw [hs] at h
              obtain ⟨helig, hmem, hle, hmin⟩ := ih (some b0) r h hacc
              have hrb : r.created_at ≤ b0.created_at := hle b0 rfl
              refine ⟨helig, ?_, ?_, ?_⟩
              · rcases hmem with h1 | h1
                · exact Or.inl h1
                · exact Or.inr (List.mem_cons_of_mem _ h1)
              · intro b hb; cases hb; exact hrb
              · intro r' hr' hs' hl'
                rcases List.mem_cons.mp hr' with h1 | h1
                · subst h1
                  exact le_trans hrb (le_of_not_lt hlt)
                · exact hmin r' h1 hs' hl'
      · have hs : selStep acc a = acc := by simp [selStep, ha]
        rw [hs] at h
        obtain ⟨helig, hmem, hle, hmin⟩ := ih acc r h hacc
        refine ⟨helig, ?_, hle, ?_⟩
        · rcases hmem with h1 | h1
          · exact Or.inl h1
          · exact Or.inr (List.mem_cons_of_mem _ h1)
        · intro r' hr' hs' hl'
          rcases List.mem_cons.mp hr' with h1 | h1
          · subst h1; exact absurd ⟨hs', hl'⟩ ha
          · exact hmin r' h1 hs' hl'

/-- The claim query returns an eligible row of minimal created_at. -/
lemma selectFirstPending_spec (l : List JobRow) (r : JobRow)
    (h : selectFirstPending l = some r) :
    r ∈ l ∧ r.state = "pending" ∧ r.locked_by = none ∧
    ∀ r' ∈ l, r'.state = "pending" → r'.locked_by = none →
      r.created_at ≤ r'.created_at := by
  obtain ⟨helig, hmem, _, hmin⟩ :=
    select_go l none r h (by intro b hb; cases hb)
  rcases hmem with h1 | h1
  · cases h1
  · exact ⟨h1, helig.1, helig.2, hmin⟩

/-- Destructor for a successful claim: the returned job is the selected
    row after claimUpdate, and the new store rewrites exactly the rows
    sharing its id. -/
lemma claim_next_job_some (s : Store) (w : String) (now : Nat) (s' : Store)
    (j : JobRow) (h : claim_next_job s w now = some (s', j)) :
    ∃ r, selectFirstPending s.jobs = some r ∧ j = claimUpdate r w now ∧
      s' = { s with jobs := s.jobs.map (fun x =>
        if x.id = r.id then claimUpdate x w now else x) } := by
  unfold claim_next_job at h
  cases hsel : selectFirstPending s.jobs with
  | none => rw [hsel] at h; cases h
  | some r =>
      rw [hsel] at h
      simp only [Option.some.injEq, Prod.mk.injEq] at h
      exact ⟨r, rfl, h.2.symm, h.1.symm⟩

/-- Destructor for a successful update with a nonempty patch of known
    columns. -/
lemma update_job_ok (s : Store) (job_id : String) (p : List (String × Value))
    (now : Nat) (s' : Store) (b : Bool)
    (hne : p ≠ [])
    (hcols : ∀ kv ∈ p, jobsColumns.contains kv.1 = true)
    (h : update_job s job_id p now = Except.ok (s', b)) :
    s' = { s with jobs := s.jobs.map (fun r =>
      if r.id = job_id then { p.foldl applyCol r with updated_at := now }
      else r) } ∧ b = s.jobs.any (fun r => r.id == job_id) := by
  unfold update_job at h
  rw [if_neg (by simpa [List.isEmpty_iff] using hne)] at h
  have hf : p.find? (fun kv => !(jobsColumns.contains kv.1)) = none := by
    rw [List.find?_eq_none]
    intro kv hkv
    simpa using hcols kv hkv
  rw [hf] at h
  simp only [Except.ok.injEq, Prod.mk.injEq] at h
  exact ⟨h.1.symm, h.2.symm⟩

/-- Both branches of mark_as_failed name the next_retry_at column in
    their patch, a column the jobs table does not have, so the call can
    only raise (or fail earlier on an unparsable config value); no store
    it returns exists, and the database is left untouched. -/
lemma mark_as_failed_errors (s : Store) (job_id : String)
    (attempts max_retries now : Nat) :
    ∃ e, mark_as_failed s job_id attempts max_retries now = Except.error e := by
  cases hsr : should_retry (attempts + 1) max_retries with
  | false =>
      exact ⟨"no such column: next_retry_at",
        by simp [mark_as_failed, hsr, update_job, jobsColumns]⟩
  | true =>
      cases hb : parseIntConfig (get_config s "backoff-base" (some "2")) with
      | error e =>
          exact ⟨e, by simp [mark_as_failed, hsr, hb, Bind.bind, Except.bind]⟩
      | ok nb =>
          cases hd : parseIntConfig
              (get_config s "backoff-initial-delay" (some "1")) with
          | error e =>
              exact ⟨e, by
                simp [mark_as_failed, hsr, hb, hd, Bind.bind, Except.bind]⟩
          | ok nd =>
              exact ⟨"no such column: next_retry_at", by
                simp [mark_as_failed, hsr, hb, hd, Bind.bind, Except.bind,
                  update_job, jobsColumns]⟩

/-- A freshly claimed row satisfies the state/lock condition. -/
lemma rowInv_claimUpdate (r : JobRow) (w : String) (now : Nat) :
    rowInv (claimUpdate r w now) := by
  constructor
  · constructor
    · intro _
      exact ⟨by simp [claimUpdate], by simp [claimUpdate]⟩
    · intro _; rfl
  · intro hd
    rcases hd with h | h | h | h <;> simp [claimUpdate] at h

/-- A row in a passive state with both locks cleared satisfies the
    state/lock condition. -/
lemma rowInv_passive (r : JobRow) (hstate : r.state ≠ "processing")
    (hb : r.locked_by = none) (ha : r.locked_at = none) : rowInv r := by
  refine ⟨⟨fun h => absurd h hstate, fun h => absurd hb h.1⟩,
    fun _ => ⟨hb, ha⟩⟩

/-- Destructor for a successful enqueue. -/
lemma enqueue_ok (s : Store) (id cmd prio : String) (mr now : Nat) (s' : Store)
    (h : enqueue s id cmd prio mr now = Except.ok s') :
    s' = { s with jobs := s.jobs ++
      [{ id := id, command := cmd, state := "pending", attempts := 0,
         max_retries := mr, created_at := now, updated_at := now,
         locked_by := none, locked_at := none }] } := by
  unfold enqueue create_job at h
  split at h
  · split at h
    · cases h
    · simp only [Except.ok.injEq] at h
      exact h.symm
  · cases h

/-- Config writes touch only the config relation. -/
lemma inv_set_config (s : Store) (k v : String) (hs : stateLockInv s) :
    stateLockInv (set_config s k v) :=
  fun r hr => hs r hr

/-- Enqueue inserts a pending row with NULL locks. -/
lemma inv_enqueue (s : Store) (id cmd prio : String) (mr now : Nat)
    (s' : Store) (h : enqueue s id cmd prio mr now = Except.ok s')
    (hs : stateLockInv s) : stateLockInv s' := by
  rw [enqueue_ok s id cmd prio mr now s' h]
  intro r hr
  rcases List.mem_append.mp hr with h1 | h1
  · exact hs r h1
  · rw [List.mem_singleton.mp h1]
    refine rowInv_passive _ ?_ rfl rfl
    show ("pending" : String) ≠ "processing"
    decide

/-- A successful claim rewrites the selected id to a fully locked
    processing row and leaves every other row alone. -/
lemma inv_claim (s : Store) (w : String) (now : Nat) (s' : Store) (j : JobRow)
    (h : claim_next_job s w now = some (s', j)) (hs : stateLockInv s) :
    stateLockInv s' := by
  obtain ⟨r0, _, _, hs'⟩ := claim_next_job_some s w now s' j h
  subst hs'
  intro r hr
  obtain ⟨x, hx, hfx⟩ := List.mem_map.mp hr
  by_cases hid : x.id = r0.id
  · rw [if_pos hid] at hfx
    rw [← hfx]
    exact rowInv_claimUpdate x w now
  · rw [if_neg hid] at hfx
    rw [← hfx]
    exact hs x hx

/-- mark_as_completed clears both locks while leaving the completed
    state, so every row it touches is passive and unlocked. -/
lemma inv_mark_as_completed (s : Store) (id : String) (now : Nat) (s' : Store)
    (b : Bool) (h : mark_as_completed s id now = Except.ok (s', b))
    (hs : stateLockInv s) : stateLockInv s' := by
  obtain ⟨hs', _⟩ := update_job_ok s id _ now s' b (by decide) (by decide) h
  subst hs'
  intro r hr
  obtain ⟨x, hx, hfx⟩ := List.mem_map.mp hr
  by_cases hid : x.id = id
  · rw [if_pos hid] at hfx
    rw [← hfx]
    refine rowInv_passive _ ?_ rfl rfl
    show ("completed" : String) ≠ "processing"
    decide
  · rw [if_neg hid] at hfx
    rw [← hfx]
    exact hs x hx

/-- mark_as_failed never returns a store (the patch names a missing
    column), so it preserves every property of reachable states. -/
lemma inv_mark_as_failed (s : Store) (id : String) (a m now : Nat) (s' : Store)
    (b : Bool) (h : mark_as_failed s id a m now = Except.ok (s', b)) :
    stateLockInv s' := by
  obtain ⟨e, he⟩ := mark_as_failed_errors s id a m now
  rw [he] at h
  cases h

/-- dlq retry resets the revived id to a pending row with NULL locks. -/
lemma inv_dlq_retry (s : Store) (id : String) (now : Nat) (s' : Store)
    (b : Bool) (h : dlq_retry s id now = Except.ok (s', b))
    (hs : stateLockInv s) : stateLockInv s' := by
  unfold dlq_retry at h
  cases hg : get_job s id with
  | none => simp [hg] at h
  | some job =>
      simp only [hg] at h
      by_cases hd : job.state = "dead"
      · rw [if_pos hd] at h
        cases hu : update_job s id
            [("state", Value.vstr "pending"), ("attempts", Value.vnat 0),
             ("locked_by", Value.vnull), ("locked_at", Value.vnull)] now with
        | error e => simp [hu] at h
        | ok r =>
            simp only [hu, Except.ok.injEq] at h
            subst h
            obtain ⟨hs', _⟩ := update_job_ok s id _ now s' b
              (by decide) (by decide) hu
            rw [hs']
            intro x hx
            obtain ⟨y, hy, hfy⟩ := List.mem_map.mp hx
            by_cases hid : y.id = id
            · rw [if_pos hid] at hfy
              rw [← hfy]
              refine rowInv_passive _ ?_ rfl rfl
              show ("pending" : String) ≠ "processing"
              decide
            · rw [if_neg hid] at hfy
              rw [← hfy]
              exact hs y hy
      · rw [if_neg hd] at h
        simp at h

/-- The pending row inserted by enqueueing job j1 at time 0. -/
def exRowPending : JobRow :=
  { id := "j1", command := "echo hi", state := "pending", attempts := 0,
    max_retries := 3, created_at := 0, updated_at := 0,
    locked_by := none, locked_at := none }

/-- The store holding exactly the freshly enqueued row. -/
def exStorePending : Store := { jobs := [exRowPending], config := [] }

/-- The j1 row after worker.py mark_as_processing at time 7: state
    processing, but the lock columns were never written. -/
def exRowBad : JobRow :=
  { exRowPending with state := "processing", updated_at := 7 }

/-- The store after mark_as_processing. -/
def exStoreBad : Store := { jobs := [exRowBad], config := [] }

/-- C5 counterexample: the claim includes mark_as_processing among the
    exposed operations, but worker.py mark_as_processing sets
    state = processing without setting locked_by or locked_at, so the
    store obtained by enqueueing a job and then marking it processing
    is reachable yet has a processing row with NULL lock fields,
    violating the stated equivalence. -/
theorem state_lock_invariant_cex :
    Reachable exStoreBad ∧ ¬ stateLockInv exStoreBad := by
  constructor
  · have h1 : Reachable exStorePending :=
      Reachable.enq _ "j1" "echo hi" "medium" 3 0 _ Reachable.init (by rfl)
    exact Reachable.processing _ "j1" 7 _ true h1 (by rfl)
  · decide

/-- C5 (amended): at every persisted state reachable through the
    exposed operations other than mark_as_processing (create_job via
    enqueue, claim_next_job, mark_as_completed, mark_as_failed, dlq
    retry, config writes), a job has state processing iff both
    locked_by and locked_at are non-null, and every job in one of the
    states pending, completed, failed, dead has both lock fields
    null. -/
theorem state_lock_invariant_holds (s : Store) (h : ReachableSafe s) :
    stateLockInv s := by
  induction h with
  | init => intro r hr; cases hr
  | cfg s k v _ ih => exact inv_set_config s k v ih
  | enq s id cmd prio mr now s' _ heq ih =>
      exact inv_enqueue s id cmd prio mr now s' heq ih
  | claim s w now s' j _ heq ih => exact inv_claim s w now s' j heq ih
  | completed s id now s' b _ heq ih =>
      exact inv_mark_as_completed s id now s' b heq ih
  | failedRec s id a m now s' b _ heq _ =>
      exact inv_mark_as_failed s id a m now s' b heq
  | dlqRevive s id now s' b _ heq ih =>
      exact inv_dlq_retry s id now s' b heq ih

/-- The j1 row after a claim by worker-1 at time 5. -/
def exRowClaimed : JobRow := claimUpdate exRowPending "worker-1" 5

/-- The store after the claim. -/
def exStoreClaimed : Store := { jobs := [exRowClaimed], config := [] }

/-- The j1 row after mark_as_completed at time 9. -/
def exRowDone : JobRow :=
  { exRowPending with state := "completed", updated_at := 9 }

/-- The store after completion. -/
def exStoreDone : Store := { jobs := [exRowDone], config := [] }

/-- C5 witness: the invariant holds at the concrete store reached by
    enqueueing a job, claiming it, and completing it. -/
theorem state_lock_invariant_holds_witness : stateLockInv exStoreDone := by
  refine state_lock_invariant_holds _ ?_
  have h1 : ReachableSafe exStorePending :=
    ReachableSafe.enq _ "j1" "echo hi" "medium" 3 0 _ ReachableSafe.init
      (by rfl)
  have h2 : ReachableSafe exStoreClaimed :=
    ReachableSafe.claim _ "worker-1" 5 _ exRowClaimed h1 (by rfl)
  exact ReachableSafe.completed _ "j1" 9 _ true h2 (by rfl)

/-- C1 counterexample: enqueue p1 with priority low at time 0, then p2
    with priority high at time 1; claim_next_job hands out p1, the
    older low-priority job, because the claim query orders by
    created_at alone (the jobs table does not even store priority), so
    a later high-priority job is not claimed first. -/
theorem claim_order_ignores_priority_cex :
    (do
      let s1 ← enqueue { jobs := [], config := [] } "p1" "echo L" "low" 3 0
      let s2 ← enqueue s1 "p2" "echo H" "high" 3 1
      pure (Option.map (fun p => p.2.id) (claim_next_job s2 "worker-1" 2)))
      = Except.ok (some "p1") ∧ "p1" ≠ "p2" :=
  ⟨by rfl, by decide⟩

/-- C1 (amended): claim_next_job selects among the eligible jobs
    (state pending, locked_by null) one of minimal created_at; the
    stored rows carry no priority at all, so priority plays no part in
    the order, and ties in created_at fall to table order rather than
    to an id comparison. -/
theorem claim_selects_earliest_created (s : Store) (w : String) (now : Nat)
    (s' : Store) (j : JobRow) (h : claim_next_job s w now = some (s', j)) :
    ∃ r ∈ s.jobs, r.state = "pending" ∧ r.locked_by = none ∧
      (∀ r' ∈ s.jobs, r'.state = "pending" → r'.locked_by = none →
        r.created_at ≤ r'.created_at) ∧ j = claimUpdate r w now := by
  obtain ⟨r, hsel, hj, _⟩ := claim_next_job_some s w now s' j h
  obtain ⟨hmem, hp, hl, hmin⟩ := selectFirstPending_spec s.jobs r hsel
  exact ⟨r, hmem, hp, hl, hmin, hj⟩

/-- A newer pending row (created at time 5). -/
def exRowNewer : JobRow :=
  { id := "b2", command := "echo B", state := "pending", attempts := 0,
    max_retries := 3, created_at := 5, updated_at := 5,
    locked_by := none, locked_at := none }

/-- An older pending row (created at time 3), listed second. -/
def exRowOlder : JobRow :=
  { id := "a1", command := "echo A", state := "pending", attempts := 0,
    max_retries := 3, created_at := 3, updated_at := 3,
    locked_by := none, locked_at := none }

/-- A store holding the newer row before the older one. -/
def exStoreTwo : Store := { jobs := [exRowNewer, exRowOlder], config := [] }

/-- The store exStoreTwo after worker w1 claims at time 9. -/
def exStoreTwoClaimed : Store :=
  { jobs := [exRowNewer, claimUpdate exRowOlder "w1" 9], config := [] }

/-- C1 witness: on the concrete two-row store the claimed job is the
    older row a1, updated by claimUpdate. -/
theorem claim_selects_earliest_created_witness :
    ∃ r ∈ exStoreTwo.jobs, r.state = "pending" ∧ r.locked_by = none ∧
      (∀ r' ∈ exStoreTwo.jobs, r'.state = "pending" → r'.locked_by = none →
        r.created_at ≤ r'.created_at) ∧
      claimUpdate exRowOlder "w1" 9 = claimUpdate r "w1" 9 :=
  claim_selects_earliest_created exStoreTwo "w1" 9 exStoreTwoClaimed
    (claimUpdate exRowOlder "w1" 9) (by rfl)

/-- A pending row that, per the retry design, would still be inside
    its backoff window (attempts already 1). -/
def exRowRetried : JobRow :=
  { id := "r1", command := "exit 1", state := "pending", attempts := 1,
    max_retries := 3, created_at := 0, updated_at := 0,
    locked_by := none, locked_at := none }

/-- The store holding only that row. -/
def exStoreRetried : Store := { jobs := [exRowRetried], config := [] }

/-- C2: the eligibility test of claim_next_job is exactly
    state = pending and locked_by null — the query never consults a
    retry time (the schema has no next_retry_at column and the function
    takes no now argument for eligibility), so whether a claim succeeds
    is independent of the time, and a pending job is claimable
    immediately, with no lower bound on the re-claim delay. -/
theorem claim_eligibility_has_no_retry_gate :
    (∀ (s : Store) (w : String) (n1 n2 : Nat),
      (claim_next_job s w n1).isSome = (claim_next_job s w n2).isSome)
    ∧ (Option.map (fun p => p.2.id) (claim_next_job exStoreRetried "w1" 0)
        = some "r1") := by
  constructor
  · intro s w n1 n2
    unfold claim_next_job
    cases selectFirstPending s.jobs <;> rfl
  · rfl

/-- A processing row locked by worker-1, as left by a claim whose
    command then failed. -/
def exRowLocked : JobRow :=
  { id := "f1", command := "exit 1", state := "processing", attempts := 0,
    max_retries := 3, created_at := 0, updated_at := 50,
    locked_by := some "worker-1", locked_at := some 50 }

/-- The store holding only that locked row. -/
def exStoreLocked : Store := { jobs := [exRowLocked], config := [] }

/-- C3: recording a failure via mark_as_failed never persists: both the
    retry branch (attempts 0 of 3) and the dead branch (attempts 1 of
    2) build an UPDATE naming the next_retry_at column, which the jobs
    table lacks, so sqlite rejects the statement and the job stays in
    state processing with its lock held. -/
theorem mark_as_failed_rejected_by_schema :
    mark_as_failed exStoreLocked "f1" 0 3 100
      = Except.error "no such column: next_retry_at"
    ∧ mark_as_failed exStoreLocked "f1" 1 2 100
      = Except.error "no such column: next_retry_at"
    ∧ Option.map JobRow.state (get_job exStoreLocked "f1")
      = some "processing" :=
  ⟨by rfl, by rfl, by rfl⟩

/-- C4: the failure decision computed inside worker.py mark_as_failed
    agrees with the spec function decide_after_failure at every input:
    with a = attempts_before + 1, the job goes to the DLQ iff
    a is at least max_retries, and otherwise retries after
    initial_delay times base to the power a seconds, at now + delay;
    in particular with max_retries = 2 the second failed attempt
    (attempts_before = 1) is Dead. -/
theorem retry_decision_matches_spec :
    ∀ (attempts_before max_retries base initial_delay now : Nat),
      decision_of_failure attempts_before max_retries base initial_delay now
        = spec_decide_after_failure attempts_before max_retries base
            initial_delay now
      ∧ decision_of_failure 1 2 base initial_delay now = Decision.dead := by
  intro a m b d n
  refine ⟨?_, by rfl⟩
  by_cases h : a + 1 < m
  · have h2 : ¬ m ≤ a + 1 := by omega
    simp [decision_of_failure, spec_decide_after_failure, should_retry, h, h2]
  · have h2 : m ≤ a + 1 := by omega
    simp [decision_of_failure, spec_decide_after_failure, should_retry, h, h2]

/-- A job object carrying priority high and a scheduled retry time. -/
def exJobHigh : Job :=
  { id := "x1", command := "echo x", priority := "high", state := "pending",
    attempts := 0, max_retries := 3, created_at := 0, updated_at := 0,
    next_retry_at := some 99 }

/-- The same job except priority low and no retry time. -/
def exJobLow : Job :=
  { exJobHigh with priority := "low", next_retry_at := none }

/-- C6: the create_job / get_job round trip loses information beyond
    timestamps: two jobs that differ only in priority and next_retry_at
    are persisted identically (the INSERT of create_job writes neither
    field and the table has no columns for them), so get_job cannot
    return the job that was supplied. -/
theorem create_job_drops_priority :
    exJobHigh.priority ≠ exJobLow.priority
    ∧ (create_job { jobs := [], config := [] } exJobHigh).map
        (fun s => get_job s "x1")
      = (create_job { jobs := [], config := [] } exJobLow).map
        (fun s => get_job s "x1") :=
  ⟨by decide, by rfl⟩

/-- C7: the status command fails whenever active jobs exist: Storage
    provides no get_priority_counts operation, so the per-priority
    report raises AttributeError as soon as pending + processing is
    positive; with an empty store the priority section is skipped and
    status succeeds. -/
theorem status_priority_counts_unavailable :
    status_priority_counts exStorePending
      = Except.error
          "AttributeError: Storage has no attribute get_priority_counts"
    ∧ status_priority_counts { jobs := [], config := [] } = Except.ok none :=
  ⟨by rfl, by rfl⟩

/-- C8: a successful claim updates exactly state, locked_by, locked_at
    and updated_at on the selected row (and on any row sharing its id);
    id, command, attempts, max_retries and created_at are carried over
    unchanged, every other row is untouched, and the config relation is
    untouched. -/
theorem claim_transition_frame (s : Store) (w : String) (now : Nat)
    (s' : Store) (j : JobRow) (h : claim_next_job s w now = some (s', j)) :
    ∃ r ∈ s.jobs,
      j.id = r.id ∧ j.command = r.command ∧ j.attempts = r.attempts ∧
      j.max_retries = r.max_retries ∧ j.created_at = r.created_at ∧
      j.state = "processing" ∧ j.locked_by = some w ∧ j.locked_at = some now ∧
      j.updated_at = now ∧ s'.config = s.config ∧
      s'.jobs = s.jobs.map (fun x =>
        if x.id = r.id then claimUpdate x w now else x) := by
  obtain ⟨r, hsel, hj, hs'⟩ := claim_next_job_some s w now s' j h
  obtain ⟨hmem, _, _, _⟩ := selectFirstPending_spec s.jobs r hsel
  subst hj
  subst hs'
  exact ⟨r, hmem, rfl, rfl, rfl, rfl, rfl, rfl, rfl, rfl, rfl, rfl, rfl⟩

/-- The store exStorePending after worker w9 claims at time 4. -/
def exStoreFrameClaimed : Store :=
  { jobs := [claimUpdate exRowPending "w9" 4], config := [] }

/-- C8 witness: the frame condition instantiated on the one-row store
    exStorePending claimed by w9 at time 4. -/
theorem claim_transition_frame_witness :
    ∃ r ∈ exStorePending.jobs,
      (claimUpdate exRowPending "w9" 4).id = r.id ∧
      (claimUpdate exRowPending "w9" 4).command = r.command ∧
      (claimUpdate exRowPending "w9" 4).attempts = r.attempts ∧
      (claimUpdate exRowPending "w9" 4).max_retries = r.max_retries ∧
      (claimUpdate exRowPending "w9" 4).created_at = r.created_at ∧
      (claimUpdate exRowPending "w9" 4).state = "processing" ∧
      (claimUpdate exRowPending "w9" 4).locked_by = some "w9" ∧
      (claimUpdate exRowPending "w9" 4).locked_at = some 4 ∧
      (claimUpdate exRowPending "w9" 4).updated_at = 4 ∧
      exStoreFrameClaimed.config = exStorePending.config ∧
      exStoreFrameClaimed.jobs = exStorePending.jobs.map (fun x =>
        if x.id = r.id then claimUpdate x "w9" 4 else x) :=
  claim_transition_frame exStorePending "w9" 4 exStoreFrameClaimed
    (claimUpdate exRowPending "w9" 4) (by rfl)

/-- The effect of the dlq retry patch on one row: state pending,
    attempts 0, both locks NULL, updated_at refreshed. -/
def dlqReset (x : JobRow) (now : Nat) : JobRow :=
  { x with state := "pending", attempts := 0, locked_by := none,
           locked_at := none, updated_at := now }

/-- C9: dlq retry on an existing job: when the job is dead, the store
    is updated so that every row with that id becomes pending with
    attempts 0 and both locks NULL (there is no next_retry_at column,
    so no retry time can remain) and the call reports success; on a job
    in any other state it fails with a state error carrying the current
    state, and no store update is performed. -/
theorem dlq_retry_contract (s : Store) (job_id : String) (now : Nat)
    (job : JobRow) (hget : get_job s job_id = some job) :
    (job.state = "dead" →
      dlq_retry s job_id now = Except.ok
        ({ s with jobs := s.jobs.map (fun x =>
            if x.id = job_id then dlqReset x now else x) }, true))
    ∧ (job.state ≠ "dead" →
        dlq_retry s job_id now
          = Except.error (RetryError.wrongState job.state)) := by
  have hmem : job ∈ s.jobs := List.mem_of_find?_eq_some hget
  have hany : s.jobs.any (fun r => r.id == job_id) = true := by
    rw [List.any_eq_true]
    refine ⟨job, hmem, ?_⟩
    have := List.find?_some hget
    simpa using this
  constructor
  · intro hd
    unfold dlq_retry
    simp only [get_job] at hget
    simp only [get_job, hget]
    rw [if_pos hd]
    have hu : update_job s job_id
        [("state", Value.vstr "pending"), ("attempts", Value.vnat 0),
         ("locked_by", Value.vnull), ("locked_at", Value.vnull)] now
      = Except.ok ({ s with jobs := s.jobs.map (fun x =>
          if x.id = job_id then dlqReset x now else x) },
          s.jobs.any (fun r => r.id == job_id)) := by rfl
    rw [hu, hany]
  · intro hnd
    unfold dlq_retry
    simp only [get_job] at hget
    simp only [get_job, hget]
    rw [if_neg hnd]

/-- A dead row that exhausted its retries. -/
def exRowDead : JobRow :=
  { id := "d1", command := "exit 1", state := "dead", attempts := 3,
    max_retries := 3, created_at := 0, updated_at := 20,
    locked_by := none, locked_at := none }

/-- The store holding only that dead row. -/
def exStoreDead : Store := { jobs := [exRowDead], config := [] }

/-- The d1 row after dlq retry at time 25. -/
def exRowRevived : JobRow := dlqReset exRowDead 25

/-- The dead store after dlq retry at time 25. -/
def exStoreRevived : Store := { jobs := [exRowRevived], config := [] }

/-- C9 witness: reviving the concrete dead job d1 succeeds with the
    reset row, and dlq retry on the pending job j1 fails with a state
    error naming pending. -/
theorem dlq_retry_contract_witness :
    dlq_retry exStoreDead "d1" 25 = Except.ok (exStoreRevived, true)
    ∧ dlq_retry exStorePending "j1" 3
        = Except.error (RetryError.wrongState "pending") :=
  ⟨(dlq_retry_contract exStoreDead "d1" 25 exRowDead (by rfl)).1 (by rfl),
   (dlq_retry_contract exStorePending "j1" 3 exRowPending (by rfl)).2
     (by decide)⟩

/-- C10: update_job with an empty patch returns False without writing
    anything (the store, updated_at included, is returned unchanged),
    whatever the id; and update_job on an id with no row likewise
    returns the unchanged store and False, so the False result does not
    distinguish an existing job given an empty patch from an unknown
    id. -/
theorem update_job_empty_patch :
    (∀ (s : Store) (job_id : String) (now : Nat),
      update_job s job_id [] now = Except.ok (s, false))
    ∧ (∀ (s : Store) (job_id : String) (p : List (String × Value)) (now : Nat),
        (∀ kv ∈ p, jobsColumns.contains kv.1 = true) →
        get_job s job_id = none →
        update_job s job_id p now = Except.ok (s, false)) := by
  constructor
  · intro s job_id now
    rfl
  · intro s job_id p now hcols hnone
    by_cases hp : p = []
    · subst hp
      rfl
    · unfold update_job
      rw [if_neg (by simpa [List.isEmpty_iff] using hp)]
      have hf : p.find? (fun kv => !(jobsColumns.contains kv.1)) = none := by
        rw [List.find?_eq_none]
        intro kv hkv
        simpa using hcols kv hkv
      rw [hf]
      simp only [get_job] at hnone
      have hne : ∀ r ∈ s.jobs, ¬ r.id = job_id := by
        intro r hr
        have := List.find?_eq_none.mp hnone r hr
        simpa using this
      have hmap : s.jobs.map (fun r =>
          if r.id = job_id then { p.foldl applyCol r with updated_at := now }
          else r) = s.jobs := by
        conv_rhs => rw [← List.map_id s.jobs]
        refine List.map_congr_left ?_
        intro r hr
        rw [if_neg (hne r hr)]
        rfl
      have hany : (s.jobs.any (fun r => r.id == job_id)) = false := by
        rw [List.any_eq_false]
        intro r hr
        simpa using hne r hr
      rw [hmap, hany]

/-- C10 witness: the empty patch on the existing id j1 and a valid
    nonempty patch on the unknown id zz both return the unchanged
    store and False. -/
theorem update_job_empty_patch_witness :
    update_job exStorePending "j1" [] 5 = Except.ok (exStorePending, false)
    ∧ update_job exStorePending "zz" [("state", Value.vstr "dead")] 5
        = Except.ok (exStorePending, false) :=
  ⟨update_job_empty_patch.1 exStorePending "j1" 5,
   update_job_empty_patch.2 exStorePending "zz"
     [("state", Value.vstr "dead")] 5 (by decide) (by rfl)⟩

end Queuectl
